import Mathlib

/-!
Verification of the RISC-V IR lowering dispatch (Core/MIPS/RiscV/RiscVCompALU.cpp)
and the frame pacing margin (Core/FrameTiming.cpp) of this repository.

Machine integers are modelled as Nat with explicit reduction modulo 2^32 / 2^64.
The host register cache implementation is outside the available sources, so its
contract is modelled from the specification (marked in the doc comments below).
-/

namespace PpssppSpec

/-! ### Machine arithmetic helpers -/

def W32 : Nat := 4294967296

def W64 : Nat := 18446744073709551616

def H32 : Nat := 2147483648

/-- Sign-extend a 32-bit value (assumed below 2^32) to its 64-bit two's-complement form. -/
def sext32 (n : Nat) : Nat :=
  if n < H32 then n else W64 - W32 + n

/-- The C cast of the low 32 bits of a value to int32_t. -/
def toInt32 (c : Nat) : Int :=
  if c % W32 < H32 then (c % W32 : Int) else (c % W32 : Int) - (W32 : Int)

/-- An Int viewed as a 64-bit unsigned value (two's complement). -/
def toU64 (i : Int) : Nat := (i % (W64 : Int)).toNat

/-! ### IR instruction model (the opcodes dispatched by RiscVCompALU.cpp) -/

inductive IROp where
  | Add | Sub | Neg | AddConst | SubConst
  | And | Or | Xor | AndConst | OrConst | XorConst | Not
  | Mov | Ext8to32 | Ext16to32
  | ReverseBits | BSwap16 | BSwap32 | Clz
  | Shl | Shr | Sar | Ror | ShlImm | ShrImm | SarImm | RorImm
  | Slt | SltConst | SltU | SltUConst
  | MovZ | MovNZ | Max | Min
  | MtLo | MtHi | MfLo | MfHi
  | Mult | MultU | Madd | MaddU | Msub | MsubU
  | Div | DivU
  deriving DecidableEq, Repr

structure IRInst where
  op : IROp
  dest : Nat
  src1 : Nat
  src2 : Nat
  constant : Nat
  deriving DecidableEq, Repr

def mkInst (op : IROp) (d s1 s2 c : Nat) : IRInst :=
  { op := op, dest := d, src1 := s1, src2 := s2, constant := c }

/-! ### Host registers and instructions emitted by the lowering -/

inductive HostReg where
  | gpr (r : Nat)
  | ptr (r : Nat)
  | scratch1
  | zero
  deriving DecidableEq, Repr

inductive HostInstr where
  | ADDW (rd rs1 rs2 : HostReg)
  | SUBW (rd rs1 rs2 : HostReg)
  | ADDIW (rd rs1 : HostReg) (imm : Int)
  | ADDI (rd rs1 : HostReg) (imm : Int)
  | LI (rd : HostReg) (imm : Int)
  | AND (rd rs1 rs2 : HostReg)
  | OR (rd rs1 rs2 : HostReg)
  | XOR (rd rs1 rs2 : HostReg)
  | ANDI (rd rs1 : HostReg) (imm : Int)
  | ORI (rd rs1 : HostReg) (imm : Int)
  | XORI (rd rs1 : HostReg) (imm : Int)
  | NOT (rd rs1 : HostReg)
  | REV8 (rd rs1 : HostReg)
  | SRAI (rd rs1 : HostReg) (sh : Nat)
  deriving DecidableEq, Repr

/-! ### Host state and instruction semantics (RV64) -/

abbrev HostState := HostReg → Nat

def regRead (H : HostState) (r : HostReg) : Nat :=
  if r = HostReg.zero then 0 else H r % W64

def hset (H : HostState) (r : HostReg) (v : Nat) : HostState :=
  fun x => if x = r then v else H x

/-- Byte reversal of a 64-bit value (REV8). -/
def byteRev64 (v : Nat) : Nat :=
  v % 256 * 72057594037927936 + v / 256 % 256 * 281474976710656 +
  v / 65536 % 256 * 1099511627776 + v / 16777216 % 256 * 4294967296 +
  v / 4294967296 % 256 * 16777216 + v / 1099511627776 % 256 * 65536 +
  v / 281474976710656 % 256 * 256 + v / 72057594037927936 % 256

/-- Arithmetic shift right of a 64-bit value. -/
def sra64 (v : Nat) (sh : Nat) : Nat :=
  toU64 (((v : Int) - (if v < W64 / 2 then 0 else (W64 : Int))) / (2 ^ sh : Nat))

def evalInstr (H : HostState) (ins : HostInstr) : HostState :=
  match ins with
  | .ADDW rd rs1 rs2 => hset H rd (sext32 ((regRead H rs1 + regRead H rs2) % W32))
  | .SUBW rd rs1 rs2 => hset H rd (sext32 ((regRead H rs1 + (W64 - regRead H rs2)) % W32))
  | .ADDIW rd rs1 imm => hset H rd (sext32 ((regRead H rs1 + toU64 imm) % W32))
  | .ADDI rd rs1 imm => hset H rd ((regRead H rs1 + toU64 imm) % W64)
  | .LI rd imm => hset H rd (toU64 imm)
  | .AND rd rs1 rs2 => hset H rd (regRead H rs1 &&& regRead H rs2)
  | .OR rd rs1 rs2 => hset H rd (regRead H rs1 ||| regRead H rs2)
  | .XOR rd rs1 rs2 => hset H rd (regRead H rs1 ^^^ regRead H rs2)
  | .ANDI rd rs1 imm => hset H rd (regRead H rs1 &&& toU64 imm)
  | .ORI rd rs1 imm => hset H rd (regRead H rs1 ||| toU64 imm)
  | .XORI rd rs1 imm => hset H rd (regRead H rs1 ^^^ toU64 imm)
  | .NOT rd rs1 => hset H rd (regRead H rs1 ^^^ (W64 - 1))
  | .REV8 rd rs1 => hset H rd (byteRev64 (regRead H rs1))
  | .SRAI rd rs1 sh => hset H rd (sra64 (regRead H rs1) sh)

def runCode (H : HostState) (code : List HostInstr) : HostState :=
  code.foldl evalInstr H

/-! ### Register cache bookkeeping

The register cache implementation (RiscVRegCache) is not among the available
sources; its flag bookkeeping is modelled from the specification. -/

structure CacheState where
  dirty : Nat → Bool
  normalized32 : Nat → Bool
  pointerMapped : Nat → Bool
  ptrDirty : Nat → Bool

def setFlag (f : Nat → Bool) (r : Nat) (b : Bool) : Nat → Bool :=
  fun x => if x = r then b else f x

/-- Modelled from the spec: MapDirtyIn write-maps the destination, marking it dirty;
mapping a virtual register for writing invalidates its stale normalization and
pointer flags unless the mapping mode re-establishes normalization (NORM32). -/
def mapDirtyIn (st : CacheState) (rd : Nat) (_rs : Nat) (norm32 : Bool) : CacheState :=
  { st with dirty := setFlag st.dirty rd true,
            normalized32 := setFlag st.normalized32 rd norm32,
            pointerMapped := setFlag st.pointerMapped rd false }

/-- Modelled from the spec: MapDirtyInIn, the two-source variant of MapDirtyIn. -/
def mapDirtyInIn (st : CacheState) (rd : Nat) (_rs1 _rs2 : Nat) (norm32 : Bool) : CacheState :=
  { st with dirty := setFlag st.dirty rd true,
            normalized32 := setFlag st.normalized32 rd norm32,
            pointerMapped := setFlag st.pointerMapped rd false }

/-- Modelled from the spec: MarkDirty records that a register changed and whether
the value is canonically 32-bit sign-extended. -/
def markDirty (st : CacheState) (rd : Nat) (norm32 : Bool) : CacheState :=
  { st with dirty := setFlag st.dirty rd true,
            normalized32 := setFlag st.normalized32 rd norm32 }

/-- Modelled from the spec: MarkPtrDirty updates the dirty state of a
pointer-mapped register without disturbing the pointer mapping. -/
def markPtrDirty (st : CacheState) (rd : Nat) : CacheState :=
  { st with ptrDirty := setFlag st.ptrDirty rd true }

/-! ### Lowering outcomes -/

structure Config where
  maskedPSPMemory : Bool
  riscvZbb : Bool
  xlen : Nat
  membase : Nat

/-- Result of one dispatch routine: emitted host code plus updated cache state,
a deferral to the generic fallback path, or a fatal invalid-opcode diagnostic.
Modelled from the spec: the assertion in the INVALIDOP macro aborts translation
with a diagnostic identifying the offending opcode (the assert macro is outside
the available sources). -/
inductive Outcome where
  | ok (code : List HostInstr) (st : CacheState)
  | fallback (inst : IRInst)
  | invalid (op : IROp)

def Outcome.codeOr (o : Outcome) (d : List HostInstr) : List HostInstr :=
  match o with
  | .ok code _ => code
  | _ => d

def Outcome.stateOr (o : Outcome) (d : CacheState) : CacheState :=
  match o with
  | .ok _ st => st
  | _ => d

def Outcome.isInvalid (o : Outcome) : Bool :=
  match o with
  | .invalid _ => true
  | _ => false

/-! ### The lowering dispatch routines, transcribed from RiscVCompALU.cpp -/

/-- CompIR_Arith: Add, Sub, AddConst, SubConst, Neg. A SubConst whose negated
constant fits the signed 12-bit immediate range is first rewritten in place to
an AddConst with the two's-complement-negated constant. -/
def compIR_Arith (cfg : Config) (st : CacheState) (inst0 : IRInst) : Outcome :=
  let allowPtrMath := cfg.maskedPSPMemory
  let inst :=
    if inst0.op = IROp.SubConst ∧ -2047 ≤ toInt32 inst0.constant ∧ toInt32 inst0.constant ≤ 2048 then
      { inst0 with op := IROp.AddConst, constant := (W32 - inst0.constant % W32) % W32 }
    else inst0
  match inst.op with
  | IROp.Add =>
    Outcome.ok [HostInstr.ADDW (HostReg.gpr inst.dest) (HostReg.gpr inst.src1) (HostReg.gpr inst.src2)]
      (mapDirtyInIn st inst.dest inst.src1 inst.src2 true)
  | IROp.Sub =>
    Outcome.ok [HostInstr.SUBW (HostReg.gpr inst.dest) (HostReg.gpr inst.src1) (HostReg.gpr inst.src2)]
      (mapDirtyInIn st inst.dest inst.src1 inst.src2 true)
  | IROp.AddConst =>
    if -2048 ≤ toInt32 inst.constant ∧ toInt32 inst.constant ≤ 2047 then
      if st.pointerMapped inst.src1 = true ∧ inst.dest = inst.src1 ∧ allowPtrMath = true then
        Outcome.ok [HostInstr.ADDI (HostReg.ptr inst.dest) (HostReg.ptr inst.dest) (toInt32 inst.constant)]
          (markPtrDirty st inst.dest)
      else
        Outcome.ok [HostInstr.ADDIW (HostReg.gpr inst.dest) (HostReg.gpr inst.src1) (toInt32 inst.constant)]
          (mapDirtyIn st inst.dest inst.src1 true)
    else
      Outcome.ok [HostInstr.LI HostReg.scratch1 (toInt32 inst.constant),
                  HostInstr.ADDW (HostReg.gpr inst.dest) (HostReg.gpr inst.src1) HostReg.scratch1]
        (mapDirtyIn st inst.dest inst.src1 true)
  | IROp.SubConst =>
    Outcome.ok [HostInstr.LI HostReg.scratch1 (toInt32 inst.constant),
                HostInstr.SUBW (HostReg.gpr inst.dest) (HostReg.gpr inst.src1) HostReg.scratch1]
      (mapDirtyIn st inst.dest inst.src1 true)
  | IROp.Neg =>
    Outcome.ok [HostInstr.SUBW (HostReg.gpr inst.dest) HostReg.zero (HostReg.gpr inst.src1)]
      (mapDirtyIn st inst.dest inst.src1 true)
  | _ => Outcome.invalid inst.op

/-- CompIR_Logic: And, Or, Xor, AndConst, OrConst, XorConst, Not, with the
normalization-state annotations performed after emission. -/
def compIR_Logic (_cfg : Config) (st : CacheState) (inst : IRInst) : Outcome :=
  match inst.op with
  | IROp.And =>
    Outcome.ok [HostInstr.AND (HostReg.gpr inst.dest) (HostReg.gpr inst.src1) (HostReg.gpr inst.src2)]
      (mapDirtyInIn st inst.dest inst.src1 inst.src2 false)
  | IROp.Or =>
    let st1 := mapDirtyInIn st inst.dest inst.src1 inst.src2 false
    let st2 :=
      if st1.normalized32 inst.src1 = true ∧ st1.normalized32 inst.src2 = true then
        markDirty st1 inst.dest true
      else st1
    Outcome.ok [HostInstr.OR (HostReg.gpr inst.dest) (HostReg.gpr inst.src1) (HostReg.gpr inst.src2)] st2
  | IROp.Xor =>
    Outcome.ok [HostInstr.XOR (HostReg.gpr inst.dest) (HostReg.gpr inst.src1) (HostReg.gpr inst.src2)]
      (mapDirtyInIn st inst.dest inst.src1 inst.src2 false)
  | IROp.AndConst =>
    let st1 := mapDirtyIn st inst.dest inst.src1 false
    let code :=
      if -2048 ≤ toInt32 inst.constant ∧ toInt32 inst.constant ≤ 2047 then
        [HostInstr.ANDI (HostReg.gpr inst.dest) (HostReg.gpr inst.src1) (toInt32 inst.constant)]
      else
        [HostInstr.LI HostReg.scratch1 (toInt32 inst.constant),
         HostInstr.AND (HostReg.gpr inst.dest) (HostReg.gpr inst.src1) HostReg.scratch1]
    let st2 :=
      if H32 ≤ inst.constant % W32 ∧ st1.normalized32 inst.src1 = true then
        markDirty st1 inst.dest true
      else if inst.constant % W32 < H32 then
        markDirty st1 inst.dest true
      else st1
    Outcome.ok code st2
  | IROp.OrConst =>
    let st1 := mapDirtyIn st inst.dest inst.src1 false
    let code :=
      if -2048 ≤ toInt32 inst.constant ∧ toInt32 inst.constant ≤ 2047 then
        [HostInstr.ORI (HostReg.gpr inst.dest) (HostReg.gpr inst.src1) (toInt32 inst.constant)]
      else
        [HostInstr.LI HostReg.scratch1 (toInt32 inst.constant),
         HostInstr.OR (HostReg.gpr inst.dest) (HostReg.gpr inst.src1) HostReg.scratch1]
    let st2 :=
      if st1.normalized32 inst.src1 = true then markDirty st1 inst.dest true else st1
    Outcome.ok code st2
  | IROp.XorConst =>
    let st1 := mapDirtyIn st inst.dest inst.src1 false
    let code :=
      if -2048 ≤ toInt32 inst.constant ∧ toInt32 inst.constant ≤ 2047 then
        [HostInstr.XORI (HostReg.gpr inst.dest) (HostReg.gpr inst.src1) (toInt32 inst.constant)]
      else
        [HostInstr.LI HostReg.scratch1 (toInt32 inst.constant),
         HostInstr.XOR (HostReg.gpr inst.dest) (HostReg.gpr inst.src1) HostReg.scratch1]
    Outcome.ok code st1
  | IROp.Not =>
    Outcome.ok [HostInstr.NOT (HostReg.gpr inst.dest) (HostReg.gpr inst.src1)]
      (mapDirtyIn st inst.dest inst.src1 false)
  | _ => Outcome.invalid inst.op

/-- CompIR_Bits: ReverseBits, BSwap16 and Clz defer to the generic fallback;
BSwap32 has a Zbb fast path. -/
def compIR_Bits (cfg : Config) (st : CacheState) (inst : IRInst) : Outcome :=
  match inst.op with
  | IROp.ReverseBits => Outcome.fallback inst
  | IROp.BSwap16 => Outcome.fallback inst
  | IROp.BSwap32 =>
    if cfg.riscvZbb = true then
      let st1 := mapDirtyIn st inst.dest inst.src1 false
      if 64 ≤ cfg.xlen then
        Outcome.ok [HostInstr.REV8 (HostReg.gpr inst.dest) (HostReg.gpr inst.src1),
                    HostInstr.SRAI (HostReg.gpr inst.dest) (HostReg.gpr inst.dest) (cfg.xlen - 32)]
          (markDirty st1 inst.dest true)
      else
        Outcome.ok [HostInstr.REV8 (HostReg.gpr inst.dest) (HostReg.gpr inst.src1)] st1
    else Outcome.fallback inst
  | IROp.Clz => Outcome.fallback inst
  | _ => Outcome.invalid inst.op

/-- CompIR_Shift: every shift variant defers to the generic fallback. -/
def compIR_Shift (_cfg : Config) (_st : CacheState) (inst : IRInst) : Outcome :=
  match inst.op with
  | IROp.Shl | IROp.Shr | IROp.Sar | IROp.Ror
  | IROp.ShlImm | IROp.ShrImm | IROp.SarImm | IROp.RorImm => Outcome.fallback inst
  | _ => Outcome.invalid inst.op

/-- CompIR_Compare: every comparison variant defers to the generic fallback. -/
def compIR_Compare (_cfg : Config) (_st : CacheState) (inst : IRInst) : Outcome :=
  match inst.op with
  | IROp.Slt | IROp.SltConst | IROp.SltU | IROp.SltUConst => Outcome.fallback inst
  | _ => Outcome.invalid inst.op

/-- CompIR_CondAssign: conditional moves and min and max defer to the fallback. -/
def compIR_CondAssign (_cfg : Config) (_st : CacheState) (inst : IRInst) : Outcome :=
  match inst.op with
  | IROp.MovZ | IROp.MovNZ | IROp.Max | IROp.Min => Outcome.fallback inst
  | _ => Outcome.invalid inst.op

/-- CompIR_HiLo: high and low multiply-result transfers defer to the fallback. -/
def compIR_HiLo (_cfg : Config) (_st : CacheState) (inst : IRInst) : Outcome :=
  match inst.op with
  | IROp.MtLo | IROp.MtHi | IROp.MfLo | IROp.MfHi => Outcome.fallback inst
  | _ => Outcome.invalid inst.op

/-- CompIR_Mult: multiplies and multiply-accumulates defer to the fallback. -/
def compIR_Mult (_cfg : Config) (_st : CacheState) (inst : IRInst) : Outcome :=
  match inst.op with
  | IROp.Mult | IROp.MultU | IROp.Madd | IROp.MaddU
  | IROp.Msub | IROp.MsubU => Outcome.fallback inst
  | _ => Outcome.invalid inst.op

/-- CompIR_Div: divides defer to the fallback. -/
def compIR_Div (_cfg : Config) (_st : CacheState) (inst : IRInst) : Outcome :=
  match inst.op with
  | IROp.Div | IROp.DivU => Outcome.fallback inst
  | _ => Outcome.invalid inst.op

/-! ### Declared opcode groups of the dispatch routines -/

def arithOps : List IROp := [IROp.Add, IROp.Sub, IROp.Neg, IROp.AddConst, IROp.SubConst]

def logicOps : List IROp :=
  [IROp.And, IROp.Or, IROp.Xor, IROp.AndConst, IROp.OrConst, IROp.XorConst, IROp.Not]

def bitsOps : List IROp := [IROp.ReverseBits, IROp.BSwap16, IROp.BSwap32, IROp.Clz]

def shiftOps : List IROp :=
  [IROp.Shl, IROp.Shr, IROp.Sar, IROp.Ror, IROp.ShlImm, IROp.ShrImm, IROp.SarImm, IROp.RorImm]

def compareOps : List IROp := [IROp.Slt, IROp.SltConst, IROp.SltU, IROp.SltUConst]

def condAssignOps : List IROp := [IROp.MovZ, IROp.MovNZ, IROp.Max, IROp.Min]

def hiLoOps : List IROp := [IROp.MtLo, IROp.MtHi, IROp.MfLo, IROp.MfHi]

def multOps : List IROp := [IROp.Mult, IROp.MultU, IROp.Madd, IROp.MaddU, IROp.Msub, IROp.MsubU]

def divOps : List IROp := [IROp.Div, IROp.DivU]

/-! ### Derived views -/

/-- The guest-visible 32-bit value recovered from a pointer register: the
pointer register holds membase plus the value, so subtract membase modulo 2^32. -/
def ptrView (cfg : Config) (x : Nat) : Nat := (x + (W64 - cfg.membase % W64)) % W32

/-- A 64-bit value is canonically 32-bit sign-extended. -/
def isNormVal (v : Nat) : Prop := v = sext32 (v % W32)

/-! ### Frame timing (Core/FrameTiming.cpp) -/

structure FrameTimingState where
  timeStep : ℚ
  cpuTime : ℚ
  postSleep : ℚ

/-- The sleep margin constant in FrameTiming::AfterPresent: 2.0 * 0.001 seconds. -/
def frameMargin : ℚ := 2 * (1 / 1000)

/-- FrameTiming::AfterPresent: computes postSleep = timeStep - margin - cpuTime and
issues a sleep call for exactly that duration when it is positive. -/
def afterPresent (st : FrameTimingState) : FrameTimingState × List ℚ :=
  let post := st.timeStep - frameMargin - st.cpuTime
  ({ st with postSleep := post }, if 0 < post then [post] else [])

/-! ### Concrete fixtures used by witnesses and counterexamples -/

def cfg0 : Config := { maskedPSPMemory := false, riscvZbb := true, xlen := 64, membase := 1048576 }

def cfgMasked : Config := { maskedPSPMemory := true, riscvZbb := true, xlen := 64, membase := 1048576 }

def stZero : CacheState :=
  { dirty := fun _ => false, normalized32 := fun _ => false,
    pointerMapped := fun _ => false, ptrDirty := fun _ => false }

def stAllNorm : CacheState := { stZero with normalized32 := fun _ => true }

def stPtr : CacheState := { stZero with pointerMapped := fun _ => true }

def H0 : HostState := fun _ => 0

def Hptr : HostState :=
  fun r => if r = HostReg.ptr 4 then 1048583 else if r = HostReg.gpr 4 then 7 else 0

/-- The signed 12-bit immediate range check used by the lowering. -/
def inImmRange (c : Nat) : Prop := -2048 ≤ toInt32 c ∧ toInt32 c ≤ 2047

instance (c : Nat) : Decidable (inImmRange c) := by
  unfold inImmRange
  infer_instance

/-! ### Helper lemmas -/

theorem toU64_lt (i : Int) : toU64 i < W64 := by
  unfold toU64 W64
  omega

theorem W32_eq : W32 = 2 ^ 32 := by norm_num [W32]

theorem W64_eq : W64 = 2 ^ 64 := by norm_num [W64]

theorem H32_eq : H32 = 2 ^ 31 := by norm_num [H32]

theorem toU64_toInt32 (c : Nat) : toU64 (toInt32 c) = sext32 (c % W32) := by
  rcases Nat.lt_or_ge (c % W32) H32 with h | h
  · simp only [toU64, toInt32, sext32, if_pos h]
    unfold W32 W64 H32 at *
    omega
  · simp only [toU64, toInt32, sext32, if_neg (Nat.not_lt_of_ge h),
      if_neg (Nat.not_lt_of_ge h)]
    unfold W32 W64 H32 at *
    omega

theorem sext32_lt (n : Nat) (h : n < W32) : sext32 n < W64 := by
  unfold sext32 W32 W64 H32 at *
  split <;> omega

theorem sext32_mod32 (n : Nat) (h : n < W32) : sext32 n % W32 = n := by
  unfold sext32 W32 W64 H32 at *
  split <;> omega

theorem regRead_lt (H : HostState) (r : HostReg) : regRead H r < W64 := by
  unfold regRead W64
  split <;> omega

theorem regRead_hset_same (H : HostState) (r : HostReg) (v : Nat) (h : r ≠ HostReg.zero) :
    regRead (hset H r v) r = v % W64 := by
  simp [regRead, hset, h]

theorem regRead_hset_other (H : HostState) (r x : HostReg) (v : Nat) (h : x ≠ r) :
    regRead (hset H r v) x = regRead H x := by
  simp [regRead, hset, h]

theorem runCode_nil (H : HostState) : runCode H [] = H := rfl

theorem runCode_cons (H : HostState) (i : HostInstr) (code : List HostInstr) :
    runCode H (i :: code) = runCode (evalInstr H i) code := rfl

theorem testBit_of_ge_H32 (n : Nat) (h1 : H32 ≤ n) (h2 : n < W32) :
    n.testBit 31 = true := by
  rw [Nat.testBit_to_div_mod]
  simp only [decide_eq_true_eq]
  unfold H32 at h1
  unfold W32 at h2
  have hp : (2 : Nat) ^ 31 = 2147483648 := by norm_num
  rw [hp]
  omega

theorem sext32_testBit (n : Nat) (h : n < W32) (i : Nat) :
    (sext32 n).testBit i =
      if i < 32 then n.testBit i else if i < 64 then n.testBit 31 else false := by
  unfold sext32
  rcases Nat.lt_or_ge n H32 with hs | hs
  · rw [if_pos hs]
    rcases Nat.lt_or_ge i 32 with hi | hi
    · simp [hi]
    · have hn31 : n.testBit 31 = false :=
        Nat.testBit_lt_two_pow (by rw [← H32_eq] at *; omega)
      have hni : n.testBit i = false := by
        apply Nat.testBit_lt_two_pow
        calc n < 2 ^ 31 := by rw [← H32_eq]; exact hs
          _ ≤ 2 ^ i := Nat.pow_le_pow_right (by omega) (by omega)
      simp [Nat.not_lt_of_ge hi, hn31, hni]
  · rw [if_neg (Nat.not_lt_of_ge hs)]
    have hrw : W64 - W32 + n = 2 ^ 32 * (2 ^ 32 - 1) + n := by
      unfold W64 W32; omega
    have hb : n < 2 ^ 32 := by rw [← W32_eq]; exact h
    have h31 : n.testBit 31 = true := testBit_of_ge_H32 n hs h
    rw [hrw, Nat.testBit_mul_pow_two_add _ hb, Nat.testBit_two_pow_sub_one]
    rcases Nat.lt_or_ge i 32 with hi | hi
    · rw [if_pos hi, if_pos hi]
    · rw [if_neg (Nat.not_lt_of_ge hi), if_neg (Nat.not_lt_of_ge hi)]
      rcases Nat.lt_or_ge i 64 with hi64 | hi64
      · rw [if_pos hi64, h31]
        simp only [decide_eq_true_eq]
        omega
      · rw [if_neg (Nat.not_lt_of_ge hi64)]
        simp only [decide_eq_false_iff_not]
        omega

theorem sext32_lor (a b : Nat) (ha : a < W32) (hb : b < W32) :
    sext32 a ||| sext32 b = sext32 (a ||| b) := by
  have hab : a ||| b < W32 := by
    rw [W32_eq] at *
    exact Nat.or_lt_two_pow ha hb
  apply Nat.eq_of_testBit_eq
  intro i
  rw [Nat.testBit_or, sext32_testBit a ha i, sext32_testBit b hb i,
    sext32_testBit (a ||| b) hab i]
  rcases Nat.lt_or_ge i 32 with h1 | h1
  · simp [h1, Nat.testBit_or]
  · rcases Nat.lt_or_ge i 64 with h2 | h2
    · simp [Nat.not_lt_of_ge h1, h2, Nat.testBit_or]
    · simp [Nat.not_lt_of_ge h1, Nat.not_lt_of_ge h2]

theorem sext32_land (a b : Nat) (ha : a < W32) (hb : b < W32) :
    sext32 a &&& sext32 b = sext32 (a &&& b) := by
  have hab : a &&& b < W32 := by
    rw [W32_eq] at *
    exact Nat.and_lt_two_pow a hb
  apply Nat.eq_of_testBit_eq
  intro i
  rw [Nat.testBit_and, sext32_testBit a ha i, sext32_testBit b hb i,
    sext32_testBit (a &&& b) hab i]
  rcases Nat.lt_or_ge i 32 with h1 | h1
  · simp [h1, Nat.testBit_and]
  · rcases Nat.lt_or_ge i 64 with h2 | h2
    · simp [Nat.not_lt_of_ge h1, h2, Nat.testBit_and]
    · simp [Nat.not_lt_of_ge h1, Nat.not_lt_of_ge h2]

theorem lor_mod_two_pow (a b n : Nat) : (a ||| b) % 2 ^ n = a % 2 ^ n ||| b % 2 ^ n := by
  apply Nat.eq_of_testBit_eq
  intro i
  simp only [Nat.testBit_mod_two_pow, Nat.testBit_or]
  cases Decidable.em (i < n) with
  | inl h => simp [h]
  | inr h => simp [h]

theorem land_mod_two_pow (a b n : Nat) : (a &&& b) % 2 ^ n = a % 2 ^ n &&& b % 2 ^ n := by
  apply Nat.eq_of_testBit_eq
  intro i
  simp only [Nat.testBit_mod_two_pow, Nat.testBit_and]
  cases Decidable.em (i < n) with
  | inl h => simp [h]
  | inr h => simp [h]

theorem xor_mod_two_pow (a b n : Nat) : (a ^^^ b) % 2 ^ n = a % 2 ^ n ^^^ b % 2 ^ n := by
  apply Nat.eq_of_testBit_eq
  intro i
  simp only [Nat.testBit_mod_two_pow, Nat.testBit_xor]
  cases Decidable.em (i < n) with
  | inl h => simp [h]
  | inr h => simp [h]

theorem isNormVal_lor (a b : Nat) (ha : isNormVal a) (hb : isNormVal b) :
    isNormVal (a ||| b) := by
  unfold isNormVal at *
  have ha' : a % W32 < W32 := Nat.mod_lt _ (by unfold W32; omega)
  have hb' : b % W32 < W32 := Nat.mod_lt _ (by unfold W32; omega)
  calc a ||| b = sext32 (a % W32) ||| sext32 (b % W32) := by rw [← ha, ← hb]
    _ = sext32 (a % W32 ||| b % W32) := sext32_lor _ _ ha' hb'
    _ = sext32 ((a ||| b) % W32) := by rw [W32_eq, lor_mod_two_pow]

theorem isNormVal_land (a b : Nat) (ha : isNormVal a) (hb : isNormVal b) :
    isNormVal (a &&& b) := by
  unfold isNormVal at *
  have ha' : a % W32 < W32 := Nat.mod_lt _ (by unfold W32; omega)
  have hb' : b % W32 < W32 := Nat.mod_lt _ (by unfold W32; omega)
  calc a &&& b = sext32 (a % W32) &&& sext32 (b % W32) := by rw [← ha, ← hb]
    _ = sext32 (a % W32 &&& b % W32) := sext32_land _ _ ha' hb'
    _ = sext32 ((a &&& b) % W32) := by rw [W32_eq, land_mod_two_pow]

theorem mod_W32_lt (x : Nat) : x % W32 < W32 :=
  Nat.mod_lt _ (by unfold W32; omega)

theorem sext32_cases (n : Nat) :
    (n < H32 ∧ sext32 n = n) ∨ (H32 ≤ n ∧ sext32 n = W64 - W32 + n) := by
  unfold sext32
  split
  · exact Or.inl ⟨by assumption, rfl⟩
  · next h => exact Or.inr ⟨Nat.le_of_not_lt h, rfl⟩

theorem toInt32_char (c : Nat) :
    (c % W32 < H32 ∧ toInt32 c = (c % W32 : Int)) ∨
    (H32 ≤ c % W32 ∧ toInt32 c = (c % W32 : Int) - (W32 : Int)) := by
  unfold toInt32
  split
  · exact Or.inl ⟨by assumption, rfl⟩
  · next h => exact Or.inr ⟨Nat.le_of_not_lt h, rfl⟩

/-- Negating an int32 in the rewrite range lands the negated constant exactly in
the signed 12-bit immediate-add range. -/
theorem toInt32_negConst (c : Nat) (h1 : -2047 ≤ toInt32 c) (h2 : toInt32 c ≤ 2048) :
    toInt32 ((W32 - c % W32) % W32) = -toInt32 c ∧
    -2048 ≤ toInt32 ((W32 - c % W32) % W32) ∧
    toInt32 ((W32 - c % W32) % W32) ≤ 2047 := by
  rcases toInt32_char c with ⟨ha, hb⟩ | ⟨ha, hb⟩ <;>
    rcases toInt32_char ((W32 - c % W32) % W32) with ⟨hc, hd⟩ | ⟨hc, hd⟩ <;>
    rw [hb] at h1 h2 <;>
    rw [hb, hd] <;>
    unfold W32 H32 at * <;>
    omega

/-- Shape of the AddConst lowering: immediate-range check, then the pointer fast
path or the immediate add, else scratch materialization plus ADDW. -/
theorem compIR_Arith_addConst (cfg : Config) (st : CacheState) (d s1 s2 c : Nat) :
    compIR_Arith cfg st (mkInst IROp.AddConst d s1 s2 c) =
      (if -2048 ≤ toInt32 c ∧ toInt32 c ≤ 2047 then
        if st.pointerMapped s1 = true ∧ d = s1 ∧ cfg.maskedPSPMemory = true then
          Outcome.ok [HostInstr.ADDI (HostReg.ptr d) (HostReg.ptr d) (toInt32 c)]
            (markPtrDirty st d)
        else
          Outcome.ok [HostInstr.ADDIW (HostReg.gpr d) (HostReg.gpr s1) (toInt32 c)]
            (mapDirtyIn st d s1 true)
      else
        Outcome.ok [HostInstr.LI HostReg.scratch1 (toInt32 c),
            HostInstr.ADDW (HostReg.gpr d) (HostReg.gpr s1) HostReg.scratch1]
          (mapDirtyIn st d s1 true)) := by
  simp only [compIR_Arith, mkInst]
  rw [if_neg (fun hc => IROp.noConfusion hc.1)]

/-- Shape of the SubConst lowering: the in-place rewrite to AddConst with the
negated constant when the negation fits the immediate-add range, else scratch
materialization plus SUBW. -/
theorem compIR_Arith_subConst (cfg : Config) (st : CacheState) (d s1 s2 c : Nat) :
    compIR_Arith cfg st (mkInst IROp.SubConst d s1 s2 c) =
      (if -2047 ≤ toInt32 c ∧ toInt32 c ≤ 2048 then
        compIR_Arith cfg st (mkInst IROp.AddConst d s1 s2 ((W32 - c % W32) % W32))
      else
        Outcome.ok [HostInstr.LI HostReg.scratch1 (toInt32 c),
            HostInstr.SUBW (HostReg.gpr d) (HostReg.gpr s1) HostReg.scratch1]
          (mapDirtyIn st d s1 true)) := by
  rcases Decidable.em (-2047 ≤ toInt32 c ∧ toInt32 c ≤ 2048) with hC | hC
  · rw [if_pos hC, compIR_Arith_addConst]
    simp only [compIR_Arith, mkInst]
    rw [if_pos ⟨trivial, hC⟩]
  · rw [if_neg hC]
    simp only [compIR_Arith, mkInst]
    rw [if_neg (fun hc => hC hc.2)]

/-! ### Claim theorems -/

/-- Claim C8: the frame pacing sleep margin is exactly 2 milliseconds (0.002 s):
after a present, postSleep equals timeStep - 0.002 - cpuTime, and a sleep of
exactly that duration is performed only when the quantity is positive. -/
theorem frame_margin_two_ms (st : FrameTimingState) :
    frameMargin = 2 / 1000 ∧
    (afterPresent st).1.postSleep = st.timeStep - 2 / 1000 - st.cpuTime ∧
    (afterPresent st).2 =
      (if 0 < st.timeStep - 2 / 1000 - st.cpuTime
       then [st.timeStep - 2 / 1000 - st.cpuTime] else []) ∧
    ((afterPresent st).2 ≠ [] ↔ 0 < st.timeStep - 2 / 1000 - st.cpuTime) := by
  have hm : frameMargin = 2 / 1000 := by norm_num [frameMargin]
  have h1 : (afterPresent st).1.postSleep = st.timeStep - 2 / 1000 - st.cpuTime := by
    simp [afterPresent, hm]
  have h2 : (afterPresent st).2 =
      (if 0 < st.timeStep - 2 / 1000 - st.cpuTime
       then [st.timeStep - 2 / 1000 - st.cpuTime] else []) := by
    simp [afterPresent, hm]
  refine ⟨hm, h1, h2, ?_⟩
  rw [h2]
  split
  · simp_all
  · simp_all

/-- The normalization flag of the destination after lowering AndConst, in closed
form: bit 31 clear always marks it; bit 31 set marks it only when src1 is not
aliased to the destination and was normalized. -/
theorem andConst_flag_char (cfg : Config) (st : CacheState) (d s1 s2 c : Nat) :
    ((compIR_Logic cfg st (mkInst IROp.AndConst d s1 s2 c)).stateOr st).normalized32 d =
      (if c % W32 < H32 then true
       else if s1 ≠ d ∧ st.normalized32 s1 = true then true else false) := by
  simp only [compIR_Logic, mkInst, Outcome.stateOr]
  split
  · next hc =>
    rcases hc with ⟨hge, hq⟩
    simp only [mapDirtyIn, setFlag] at hq
    by_cases hsd : s1 = d
    · rw [if_pos hsd] at hq
      cases hq
    · rw [if_neg hsd] at hq
      rw [if_neg (by omega), if_pos ⟨hsd, hq⟩]
      simp [markDirty, mapDirtyIn, setFlag]
  · next hc =>
    split
    · next h2 =>
      simp [markDirty, mapDirtyIn, setFlag]
    · next h2 =>
      have hq : ¬(s1 ≠ d ∧ st.normalized32 s1 = true) := by
        intro ⟨hsd, hn⟩
        apply hc
        refine ⟨by omega, ?_⟩
        simp [mapDirtyIn, setFlag, hsd, hn]
      rw [if_neg hq]
      simp [mapDirtyIn, setFlag]

/-- Claim C10: for every AndConst whose constant has bit 31 clear, the destination
is marked normalized after lowering, regardless of the prior state of src1. -/
theorem andConst_bit31_clear_norm (cfg : Config) (st : CacheState) (d s1 s2 c : Nat)
    (h : c % W32 < H32) :
    ((compIR_Logic cfg st (mkInst IROp.AndConst d s1 s2 c)).stateOr st).normalized32 d = true := by
  rw [andConst_flag_char, if_pos h]

theorem andConst_bit31_clear_norm_witness :
    ((compIR_Logic cfg0 stZero (mkInst IROp.AndConst 5 5 0 2047)).stateOr stZero).normalized32 5
      = true :=
  andConst_bit31_clear_norm cfg0 stZero 5 5 0 2047 (by decide)

/-- Claim C9: an AddConst whose constant is outside the signed 12-bit immediate
range is never lowered through the pointer fast path, even when dest equals src1,
src1 is pointer-mapped and pointer arithmetic is allowed; the constant is
materialized into the scratch register and a register-register ADDW is emitted. -/
theorem addConst_out_of_range_no_ptr (cfg : Config) (st : CacheState) (d s1 s2 c : Nat)
    (h : ¬inImmRange c) :
    compIR_Arith cfg st (mkInst IROp.AddConst d s1 s2 c) =
      Outcome.ok [HostInstr.LI HostReg.scratch1 (toInt32 c),
          HostInstr.ADDW (HostReg.gpr d) (HostReg.gpr s1) HostReg.scratch1]
        (mapDirtyIn st d s1 true) := by
  unfold inImmRange at h
  simp only [compIR_Arith, mkInst]
  rw [if_neg (fun hc => by exact absurd hc.1 (by simp))]
  rw [if_neg h]

theorem addConst_out_of_range_no_ptr_witness :
    compIR_Arith cfgMasked stPtr (mkInst IROp.AddConst 4 4 0 4096) =
      Outcome.ok [HostInstr.LI HostReg.scratch1 (toInt32 4096),
          HostInstr.ADDW (HostReg.gpr 4) (HostReg.gpr 4) HostReg.scratch1]
        (mapDirtyIn stPtr 4 4 true) :=
  addConst_out_of_range_no_ptr cfgMasked stPtr 4 4 0 4096 (by decide)

/-- Claim C2 counterexample: with every register normalized beforehand, lowering
the register-register And leaves the destination not marked normalized (and the
same happens for Or when the destination aliases a source), refuting the claim
that And of two normalized sources always marks the destination normalized. -/
theorem andOr_norm_flag_cex :
    ((compIR_Logic cfg0 stAllNorm (mkInst IROp.And 1 2 3 0)).stateOr stAllNorm).normalized32 1
        = false ∧
    ((compIR_Logic cfg0 stAllNorm (mkInst IROp.Or 1 1 2 0)).stateOr stAllNorm).normalized32 1
        = false := by
  constructor <;> decide

/-- Claim C7 counterexample: the scenario AndConst(dest=r5, src1=r5,
constant=0x80000000) with r5 previously normalized leaves the destination NOT
marked normalized: the write-map of the destination invalidates the flag of the
aliased source before the normalization query. -/
theorem andConst_signbit_norm_cex :
    ((compIR_Logic cfg0 stAllNorm
        (mkInst IROp.AndConst 5 5 0 2147483648)).stateOr stAllNorm).normalized32 5 = false := by
  decide

/-- Claim C7 (amended): for AndConst, a constant with bit 31 set marks the
destination normalized exactly when src1 is still normalized after the
destination write-map, i.e. when the destination differs from src1 and src1 was
normalized beforehand; when the destination aliases src1 the flag is not set
(a constant with bit 31 clear always marks the destination, as in C10). -/
theorem andConst_signbit_norm_amended (cfg : Config) (st : CacheState) (d s1 s2 c : Nat)
    (hbit : H32 ≤ c % W32) :
    (d ≠ s1 → st.normalized32 s1 = true →
      ((compIR_Logic cfg st (mkInst IROp.AndConst d s1 s2 c)).stateOr st).normalized32 d
        = true) ∧
    (d = s1 →
      ((compIR_Logic cfg st (mkInst IROp.AndConst d s1 s2 c)).stateOr st).normalized32 d
        = false) := by
  constructor
  · intro hne hnorm
    rw [andConst_flag_char, if_neg (by omega), if_pos ⟨Ne.symm hne, hnorm⟩]
  · intro heq
    subst heq
    rw [andConst_flag_char, if_neg (by omega), if_neg (fun hc => hc.1 rfl)]

theorem andConst_signbit_norm_amended_witness :
    ((compIR_Logic cfg0 stAllNorm
        (mkInst IROp.AndConst 6 7 0 2147483648)).stateOr stAllNorm).normalized32 6 = true :=
  (andConst_signbit_norm_amended cfg0 stAllNorm 6 7 0 2147483648 (by decide)).1
    (by decide) (by decide)

/-- Claim C5: an opcode outside a dispatch routine's declared group reaches that
routine's default case, which aborts translation with a diagnostic identifying
the offending opcode (the invalid outcome, modelling the INVALIDOP assertion);
this holds for every dispatch routine of the file. -/
theorem dispatch_default_invalid (cfg : Config) (st : CacheState) (op : IROp)
    (d s1 s2 c : Nat) :
    (op ∉ arithOps → compIR_Arith cfg st (mkInst op d s1 s2 c) = Outcome.invalid op) ∧
    (op ∉ logicOps → compIR_Logic cfg st (mkInst op d s1 s2 c) = Outcome.invalid op) ∧
    (op ∉ bitsOps → compIR_Bits cfg st (mkInst op d s1 s2 c) = Outcome.invalid op) ∧
    (op ∉ shiftOps → compIR_Shift cfg st (mkInst op d s1 s2 c) = Outcome.invalid op) ∧
    (op ∉ compareOps → compIR_Compare cfg st (mkInst op d s1 s2 c) = Outcome.invalid op) ∧
    (op ∉ condAssignOps → compIR_CondAssign cfg st (mkInst op d s1 s2 c) = Outcome.invalid op) ∧
    (op ∉ hiLoOps → compIR_HiLo cfg st (mkInst op d s1 s2 c) = Outcome.invalid op) ∧
    (op ∉ multOps → compIR_Mult cfg st (mkInst op d s1 s2 c) = Outcome.invalid op) ∧
    (op ∉ divOps → compIR_Div cfg st (mkInst op d s1 s2 c) = Outcome.invalid op) := by
  refine ⟨?_, ?_, ?_, ?_, ?_, ?_, ?_, ?_, ?_⟩ <;> intro h <;> cases op <;>
    first
      | exact absurd (by decide) h
      | rfl

theorem dispatch_default_invalid_witness :
    compIR_Arith cfg0 stZero (mkInst IROp.Mov 1 2 3 4) = Outcome.invalid IROp.Mov ∧
    compIR_Logic cfg0 stZero (mkInst IROp.Mov 1 2 3 4) = Outcome.invalid IROp.Mov ∧
    compIR_Shift cfg0 stZero (mkInst IROp.Mov 1 2 3 4) = Outcome.invalid IROp.Mov :=
  ⟨(dispatch_default_invalid cfg0 stZero IROp.Mov 1 2 3 4).1 (by decide),
   (dispatch_default_invalid cfg0 stZero IROp.Mov 1 2 3 4).2.1 (by decide),
   (dispatch_default_invalid cfg0 stZero IROp.Mov 1 2 3 4).2.2.2.1 (by decide)⟩

/-- Claim C6: every declared-but-deferred opcode (bit-reversal, byte-swap-16,
count-leading-zeros, all shifts, all comparisons, conditional moves and min and
max, HI and LO transfers, multiplies, divides and multiply-accumulates) is
routed deterministically to the generic fallback path, and no opcode of any
declared dispatch group falls through unhandled (none reaches the invalid
default). -/
theorem deferred_ops_fallback (cfg : Config) (st : CacheState) (op : IROp)
    (d s1 s2 c : Nat) :
    (op ∈ [IROp.ReverseBits, IROp.BSwap16, IROp.Clz] →
      compIR_Bits cfg st (mkInst op d s1 s2 c) = Outcome.fallback (mkInst op d s1 s2 c)) ∧
    (op ∈ shiftOps →
      compIR_Shift cfg st (mkInst op d s1 s2 c) = Outcome.fallback (mkInst op d s1 s2 c)) ∧
    (op ∈ compareOps →
      compIR_Compare cfg st (mkInst op d s1 s2 c) = Outcome.fallback (mkInst op d s1 s2 c)) ∧
    (op ∈ condAssignOps →
      compIR_CondAssign cfg st (mkInst op d s1 s2 c) = Outcome.fallback (mkInst op d s1 s2 c)) ∧
    (op ∈ hiLoOps →
      compIR_HiLo cfg st (mkInst op d s1 s2 c) = Outcome.fallback (mkInst op d s1 s2 c)) ∧
    (op ∈ multOps →
      compIR_Mult cfg st (mkInst op d s1 s2 c) = Outcome.fallback (mkInst op d s1 s2 c)) ∧
    (op ∈ divOps →
      compIR_Div cfg st (mkInst op d s1 s2 c) = Outcome.fallback (mkInst op d s1 s2 c)) ∧
    (op ∈ arithOps → (compIR_Arith cfg st (mkInst op d s1 s2 c)).isInvalid = false) ∧
    (op ∈ logicOps → (compIR_Logic cfg st (mkInst op d s1 s2 c)).isInvalid = false) ∧
    (op ∈ bitsOps → (compIR_Bits cfg st (mkInst op d s1 s2 c)).isInvalid = false) ∧
    (op ∈ shiftOps → (compIR_Shift cfg st (mkInst op d s1 s2 c)).isInvalid = false) ∧
    (op ∈ compareOps → (compIR_Compare cfg st (mkInst op d s1 s2 c)).isInvalid = false) ∧
    (op ∈ condAssignOps → (compIR_CondAssign cfg st (mkInst op d s1 s2 c)).isInvalid = false) ∧
    (op ∈ hiLoOps → (compIR_HiLo cfg st (mkInst op d s1 s2 c)).isInvalid = false) ∧
    (op ∈ multOps → (compIR_Mult cfg st (mkInst op d s1 s2 c)).isInvalid = false) ∧
    (op ∈ divOps → (compIR_Div cfg st (mkInst op d s1 s2 c)).isInvalid = false) := by
  refine ⟨?_, ?_, ?_, ?_, ?_, ?_, ?_, ?_, ?_, ?_, ?_, ?_, ?_, ?_, ?_, ?_⟩ <;>
    (intro h; fin_cases h) <;>
    first
      | rfl
      | (simp only [compIR_Logic, compIR_Bits, mkInst]
         repeat' split
         all_goals rfl)
      | (simp only [compIR_Arith_subConst, compIR_Arith_addConst,
           apply_ite Outcome.isInvalid]
         repeat' split
         all_goals rfl)

theorem deferred_ops_fallback_witness :
    compIR_Shift cfg0 stZero (mkInst IROp.Shl 1 2 3 4) =
        Outcome.fallback (mkInst IROp.Shl 1 2 3 4) ∧
    compIR_Mult cfg0 stZero (mkInst IROp.Madd 1 2 3 4) =
        Outcome.fallback (mkInst IROp.Madd 1 2 3 4) ∧
    compIR_Bits cfg0 stZero (mkInst IROp.ReverseBits 1 2 3 4) =
        Outcome.fallback (mkInst IROp.ReverseBits 1 2 3 4) :=
  ⟨(deferred_ops_fallback cfg0 stZero IROp.Shl 1 2 3 4).2.1 (by decide),
   (deferred_ops_fallback cfg0 stZero IROp.Madd 1 2 3 4).2.2.2.2.2.1 (by decide),
   (deferred_ops_fallback cfg0 stZero IROp.ReverseBits 1 2 3 4).1 (by decide)⟩

/-- Code emitted for AndConst: immediate ANDI in range, else LI plus AND. -/
theorem compIR_Logic_andConst_code (cfg : Config) (st : CacheState) (d s1 s2 c : Nat) :
    (compIR_Logic cfg st (mkInst IROp.AndConst d s1 s2 c)).codeOr [] =
      (if -2048 ≤ toInt32 c ∧ toInt32 c ≤ 2047 then
        [HostInstr.ANDI (HostReg.gpr d) (HostReg.gpr s1) (toInt32 c)]
       else
        [HostInstr.LI HostReg.scratch1 (toInt32 c),
         HostInstr.AND (HostReg.gpr d) (HostReg.gpr s1) HostReg.scratch1]) := by
  simp only [compIR_Logic, mkInst, Outcome.codeOr]

/-- Code emitted for OrConst: immediate ORI in range, else LI plus OR. -/
theorem compIR_Logic_orConst_code (cfg : Config) (st : CacheState) (d s1 s2 c : Nat) :
    (compIR_Logic cfg st (mkInst IROp.OrConst d s1 s2 c)).codeOr [] =
      (if -2048 ≤ toInt32 c ∧ toInt32 c ≤ 2047 then
        [HostInstr.ORI (HostReg.gpr d) (HostReg.gpr s1) (toInt32 c)]
       else
        [HostInstr.LI HostReg.scratch1 (toInt32 c),
         HostInstr.OR (HostReg.gpr d) (HostReg.gpr s1) HostReg.scratch1]) := by
  simp only [compIR_Logic, mkInst, Outcome.codeOr]

/-- Code emitted for XorConst: immediate XORI in range, else LI plus XOR. -/
theorem compIR_Logic_xorConst_code (cfg : Config) (st : CacheState) (d s1 s2 c : Nat) :
    (compIR_Logic cfg st (mkInst IROp.XorConst d s1 s2 c)).codeOr [] =
      (if -2048 ≤ toInt32 c ∧ toInt32 c ≤ 2047 then
        [HostInstr.XORI (HostReg.gpr d) (HostReg.gpr s1) (toInt32 c)]
       else
        [HostInstr.LI HostReg.scratch1 (toInt32 c),
         HostInstr.XOR (HostReg.gpr d) (HostReg.gpr s1) HostReg.scratch1]) := by
  simp only [compIR_Logic, mkInst, Outcome.codeOr]

/-- Claim C1: lowering SubConst computes dest = src1 - C exactly, modulo 2^32, on
both paths; the in-place rewrite to AddConst with the negated constant fires
exactly when -2047 <= (int32)C <= 2048 and yields a single immediate add, and
otherwise (including C = -2048, where negation would overflow the encodable
range) the constant is materialized into the scratch register and a
register-register subtract is emitted. -/
theorem subConst_lowering_exact (cfg : Config) (st : CacheState) (d s1 s2 c : Nat)
    (H : HostState) (hnp : st.pointerMapped s1 = false) :
    (-2047 ≤ toInt32 c ∧ toInt32 c ≤ 2048 →
      compIR_Arith cfg st (mkInst IROp.SubConst d s1 s2 c) =
        Outcome.ok [HostInstr.ADDIW (HostReg.gpr d) (HostReg.gpr s1)
            (toInt32 ((W32 - c % W32) % W32))]
          (mapDirtyIn st d s1 true)) ∧
    (¬(-2047 ≤ toInt32 c ∧ toInt32 c ≤ 2048) →
      compIR_Arith cfg st (mkInst IROp.SubConst d s1 s2 c) =
        Outcome.ok [HostInstr.LI HostReg.scratch1 (toInt32 c),
            HostInstr.SUBW (HostReg.gpr d) (HostReg.gpr s1) HostReg.scratch1]
          (mapDirtyIn st d s1 true)) ∧
    regRead (runCode H ((compIR_Arith cfg st (mkInst IROp.SubConst d s1 s2 c)).codeOr []))
        (HostReg.gpr d) % W32
      = (regRead H (HostReg.gpr s1) + (W32 - c % W32)) % W32 := by
  have hsub := compIR_Arith_subConst cfg st d s1 s2 c
  rcases Decidable.em (-2047 ≤ toInt32 c ∧ toInt32 c ≤ 2048) with hC | hC
  · rw [if_pos hC] at hsub
    obtain ⟨hneg, hlo, hhi⟩ := toInt32_negConst c hC.1 hC.2
    have hadd := compIR_Arith_addConst cfg st d s1 s2 ((W32 - c % W32) % W32)
    rw [if_pos ⟨hlo, hhi⟩] at hadd
    rw [if_neg (fun hq => by rw [hnp] at hq; exact Bool.noConfusion hq.1)] at hadd
    have heq : compIR_Arith cfg st (mkInst IROp.SubConst d s1 s2 c) =
        Outcome.ok [HostInstr.ADDIW (HostReg.gpr d) (HostReg.gpr s1)
            (toInt32 ((W32 - c % W32) % W32))]
          (mapDirtyIn st d s1 true) := by rw [hsub, hadd]
    refine ⟨fun _ => heq, fun hc => absurd hC hc, ?_⟩
    rw [heq]
    simp only [Outcome.codeOr, runCode_cons, runCode_nil, evalInstr]
    rw [regRead_hset_same _ _ _ (by simp)]
    rw [Nat.mod_eq_of_lt (sext32_lt _ (mod_W32_lt _)), sext32_mod32 _ (mod_W32_lt _)]
    rw [toU64_toInt32]
    rcases sext32_cases ((W32 - c % W32) % W32 % W32) with ⟨h1, h2⟩ | ⟨h1, h2⟩ <;>
      rw [h2] <;> simp only [W32, H32, W64] at * <;> omega
  · rw [if_neg hC] at hsub
    refine ⟨fun hc => absurd hc hC, fun _ => hsub, ?_⟩
    rw [hsub]
    simp only [Outcome.codeOr, runCode_cons, runCode_nil, evalInstr]
    rw [regRead_hset_same _ _ _ (by simp)]
    rw [regRead_hset_other _ _ _ _ (by simp), regRead_hset_same _ _ _ (by simp)]
    rw [Nat.mod_eq_of_lt (toU64_lt _)]
    rw [Nat.mod_eq_of_lt (sext32_lt _ (mod_W32_lt _)), sext32_mod32 _ (mod_W32_lt _)]
    rw [toU64_toInt32]
    rcases sext32_cases (c % W32) with ⟨h1, h2⟩ | ⟨h1, h2⟩ <;>
      rw [h2] <;> simp only [W32, H32, W64] at * <;> omega

theorem subConst_lowering_exact_witness :
    regRead (runCode H0 ((compIR_Arith cfg0 stZero (mkInst IROp.SubConst 1 2 0 5)).codeOr []))
        (HostReg.gpr 1) % W32
      = (regRead H0 (HostReg.gpr 2) + (W32 - 5 % W32)) % W32 :=
  (subConst_lowering_exact cfg0 stZero 1 2 0 5 H0 rfl).2.2

/-- Claim C4: an AddConst with dest = src1, src1 pointer-mapped, pointer
arithmetic enabled and an encodable constant is lowered as exactly one immediate
add on the pointer register; the register stays pointer-mapped and is marked
dirty. When pointer arithmetic is not known safe, the same instruction goes
through the general integer add-constant path, and on a coherent host state
(pointer register holds membase plus the value) both paths produce the same
guest-visible 32-bit value. -/
theorem addConst_pointer_path (cfg : Config) (st : CacheState) (d s2 c : Nat) (H : HostState)
    (hr : -2048 ≤ toInt32 c ∧ toInt32 c ≤ 2047)
    (hp : st.pointerMapped d = true)
    (hcoh : regRead H (HostReg.ptr d) = (cfg.membase + regRead H (HostReg.gpr d)) % W64) :
    (cfg.maskedPSPMemory = true →
      compIR_Arith cfg st (mkInst IROp.AddConst d d s2 c) =
        Outcome.ok [HostInstr.ADDI (HostReg.ptr d) (HostReg.ptr d) (toInt32 c)]
          (markPtrDirty st d) ∧
      (markPtrDirty st d).pointerMapped d = true ∧
      (markPtrDirty st d).ptrDirty d = true ∧
      ptrView cfg
          (regRead (runCode H [HostInstr.ADDI (HostReg.ptr d) (HostReg.ptr d) (toInt32 c)])
            (HostReg.ptr d))
        = (regRead H (HostReg.gpr d) + toU64 (toInt32 c)) % W32) ∧
    (cfg.maskedPSPMemory = false →
      compIR_Arith cfg st (mkInst IROp.AddConst d d s2 c) =
        Outcome.ok [HostInstr.ADDIW (HostReg.gpr d) (HostReg.gpr d) (toInt32 c)]
          (mapDirtyIn st d d true) ∧
      regRead (runCode H [HostInstr.ADDIW (HostReg.gpr d) (HostReg.gpr d) (toInt32 c)])
          (HostReg.gpr d) % W32
        = (regRead H (HostReg.gpr d) + toU64 (toInt32 c)) % W32) := by
  have hadd := compIR_Arith_addConst cfg st d d s2 c
  rw [if_pos hr] at hadd
  constructor
  · intro hm
    rw [if_pos ⟨hp, rfl, hm⟩] at hadd
    refine ⟨hadd, ?_, ?_, ?_⟩
    · simp [markPtrDirty, hp]
    · simp [markPtrDirty, setFlag]
    · simp only [runCode_cons, runCode_nil, evalInstr]
      rw [regRead_hset_same _ _ _ (by simp), Nat.mod_mod_of_dvd _ dvd_rfl, hcoh]
      unfold ptrView
      have h1 := toU64_lt (toInt32 c)
      have h2 := regRead_lt H (HostReg.gpr d)
      simp only [W32, W64] at *
      omega
  · intro hm
    rw [if_neg (fun hq => by rw [hm] at hq; exact Bool.noConfusion hq.2.2)] at hadd
    refine ⟨hadd, ?_⟩
    simp only [runCode_cons, runCode_nil, evalInstr]
    rw [regRead_hset_same _ _ _ (by simp)]
    rw [Nat.mod_eq_of_lt (sext32_lt _ (mod_W32_lt _)), sext32_mod32 _ (mod_W32_lt _)]

theorem addConst_pointer_path_witness :
    compIR_Arith cfgMasked stPtr (mkInst IROp.AddConst 4 4 0 4294965248) =
      Outcome.ok [HostInstr.ADDI (HostReg.ptr 4) (HostReg.ptr 4) (toInt32 4294965248)]
        (markPtrDirty stPtr 4) ∧
    (markPtrDirty stPtr 4).pointerMapped 4 = true ∧
    (markPtrDirty stPtr 4).ptrDirty 4 = true ∧
    ptrView cfgMasked
        (regRead (runCode Hptr [HostInstr.ADDI (HostReg.ptr 4) (HostReg.ptr 4)
          (toInt32 4294965248)]) (HostReg.ptr 4))
      = (regRead Hptr (HostReg.gpr 4) + toU64 (toInt32 4294965248)) % W32 :=
  (addConst_pointer_path cfgMasked stPtr 4 0 4294965248 Hptr (by decide) rfl (by decide)).1 rfl

theorem land_mod_W32 (a b : Nat) : (a &&& b) % W32 = a % W32 &&& b % W32 := by
  rw [W32_eq]
  exact land_mod_two_pow a b 32

theorem lor_mod_W32 (a b : Nat) : (a ||| b) % W32 = a % W32 ||| b % W32 := by
  rw [W32_eq]
  exact lor_mod_two_pow a b 32

theorem xor_mod_W32 (a b : Nat) : (a ^^^ b) % W32 = a % W32 ^^^ b % W32 := by
  rw [W32_eq]
  exact xor_mod_two_pow a b 32

theorem land_lt_W64 (a b : Nat) (hb : b < W64) : a &&& b < W64 := by
  rw [W64_eq] at *
  exact Nat.and_lt_two_pow a hb

theorem lor_lt_W64 (a b : Nat) (ha : a < W64) (hb : b < W64) : a ||| b < W64 := by
  rw [W64_eq] at *
  exact Nat.or_lt_two_pow ha hb

theorem xor_lt_W64 (a b : Nat) (ha : a < W64) (hb : b < W64) : a ^^^ b < W64 := by
  rw [W64_eq] at *
  exact Nat.xor_lt_two_pow ha hb

/-- Claim C2 (amended): for Or, when both sources are normalized and the
destination is distinct from both sources (so the destination write-map does not
invalidate the queried flags), the destination is marked normalized; the And
lowering never marks the destination normalized; and at the value level both the
emitted OR and the emitted AND of canonically sign-extended operands are again
canonically sign-extended, so the emitted code is behaviorally equivalent to
code that re-normalizes the result unconditionally. -/
theorem andOr_norm_amended (cfg : Config) (st : CacheState) (d s1 s2 c : Nat)
    (H : HostState)
    (hd1 : d ≠ s1) (hd2 : d ≠ s2)
    (h1 : st.normalized32 s1 = true) (h2 : st.normalized32 s2 = true)
    (hv1 : isNormVal (regRead H (HostReg.gpr s1)))
    (hv2 : isNormVal (regRead H (HostReg.gpr s2))) :
    ((compIR_Logic cfg st (mkInst IROp.Or d s1 s2 c)).stateOr st).normalized32 d = true ∧
    ((compIR_Logic cfg st (mkInst IROp.And d s1 s2 c)).stateOr st).normalized32 d = false ∧
    isNormVal (regRead
      (runCode H ((compIR_Logic cfg st (mkInst IROp.Or d s1 s2 c)).codeOr []))
      (HostReg.gpr d)) ∧
    isNormVal (regRead
      (runCode H ((compIR_Logic cfg st (mkInst IROp.And d s1 s2 c)).codeOr []))
      (HostReg.gpr d)) := by
  refine ⟨?_, ?_, ?_, ?_⟩
  · simp only [compIR_Logic, mkInst, Outcome.stateOr]
    rw [if_pos ⟨by simp [mapDirtyInIn, setFlag, Ne.symm hd1, h1],
      by simp [mapDirtyInIn, setFlag, Ne.symm hd2, h2]⟩]
    simp [markDirty, setFlag]
  · simp only [compIR_Logic, mkInst, Outcome.stateOr]
    simp [mapDirtyInIn, setFlag]
  · simp only [compIR_Logic, mkInst, Outcome.codeOr, runCode_cons, runCode_nil, evalInstr]
    rw [regRead_hset_same _ _ _ (by simp)]
    rw [Nat.mod_eq_of_lt (by
      rw [W64_eq]
      exact Nat.or_lt_two_pow (by rw [← W64_eq]; exact regRead_lt H _)
        (by rw [← W64_eq]; exact regRead_lt H _))]
    exact isNormVal_lor _ _ hv1 hv2
  · simp only [compIR_Logic, mkInst, Outcome.codeOr, runCode_cons, runCode_nil, evalInstr]
    rw [regRead_hset_same _ _ _ (by simp)]
    rw [Nat.mod_eq_of_lt (by
      rw [W64_eq]
      exact Nat.and_lt_two_pow _ (by rw [← W64_eq]; exact regRead_lt H _))]
    exact isNormVal_land _ _ hv1 hv2

theorem andOr_norm_amended_witness :
    ((compIR_Logic cfg0 stAllNorm (mkInst IROp.Or 1 2 3 0)).stateOr stAllNorm).normalized32 1
        = true ∧
    ((compIR_Logic cfg0 stAllNorm (mkInst IROp.And 1 2 3 0)).stateOr stAllNorm).normalized32 1
        = false :=
  ⟨(andOr_norm_amended cfg0 stAllNorm 1 2 3 0 H0 (by decide) (by decide) rfl rfl
      rfl rfl).1,
   (andOr_norm_amended cfg0 stAllNorm 1 2 3 0 H0 (by decide) (by decide) rfl rfl
      rfl rfl).2.1⟩

/-- Claim C3: for AddConst, AndConst, OrConst and XorConst, a constant with
-2048 <= (int32)C <= 2047 is lowered with the single-instruction immediate form
and any other constant by materializing it into the scratch register followed by
the register-register form; the emitted code always computes the reference
32-bit operation (hence also at the boundary constants -2048, -2047, 2047 and
2048), and for every encodable constant the immediate form and the materialized
form produce bit-identical 64-bit results. -/
theorem constOp_immediate_boundary (cfg : Config) (st : CacheState) (d s1 s2 c : Nat)
    (H : HostState) (hnp : st.pointerMapped s1 = false) :
    (-2048 ≤ toInt32 c ∧ toInt32 c ≤ 2047 →
      (compIR_Arith cfg st (mkInst IROp.AddConst d s1 s2 c)).codeOr [] =
        [HostInstr.ADDIW (HostReg.gpr d) (HostReg.gpr s1) (toInt32 c)]) ∧
    (¬(-2048 ≤ toInt32 c ∧ toInt32 c ≤ 2047) →
      (compIR_Arith cfg st (mkInst IROp.AddConst d s1 s2 c)).codeOr [] =
        [HostInstr.LI HostReg.scratch1 (toInt32 c),
         HostInstr.ADDW (HostReg.gpr d) (HostReg.gpr s1) HostReg.scratch1]) ∧
    (-2048 ≤ toInt32 c ∧ toInt32 c ≤ 2047 →
      (compIR_Logic cfg st (mkInst IROp.AndConst d s1 s2 c)).codeOr [] =
        [HostInstr.ANDI (HostReg.gpr d) (HostReg.gpr s1) (toInt32 c)]) ∧
    (¬(-2048 ≤ toInt32 c ∧ toInt32 c ≤ 2047) →
      (compIR_Logic cfg st (mkInst IROp.AndConst d s1 s2 c)).codeOr [] =
        [HostInstr.LI HostReg.scratch1 (toInt32 c),
         HostInstr.AND (HostReg.gpr d) (HostReg.gpr s1) HostReg.scratch1]) ∧
    (-2048 ≤ toInt32 c ∧ toInt32 c ≤ 2047 →
      (compIR_Logic cfg st (mkInst IROp.OrConst d s1 s2 c)).codeOr [] =
        [HostInstr.ORI (HostReg.gpr d) (HostReg.gpr s1) (toInt32 c)]) ∧
    (¬(-2048 ≤ toInt32 c ∧ toInt32 c ≤ 2047) →
      (compIR_Logic cfg st (mkInst IROp.OrConst d s1 s2 c)).codeOr [] =
        [HostInstr.LI HostReg.scratch1 (toInt32 c),
         HostInstr.OR (HostReg.gpr d) (HostReg.gpr s1) HostReg.scratch1]) ∧
    (-2048 ≤ toInt32 c ∧ toInt32 c ≤ 2047 →
      (compIR_Logic cfg st (mkInst IROp.XorConst d s1 s2 c)).codeOr [] =
        [HostInstr.XORI (HostReg.gpr d) (HostReg.gpr s1) (toInt32 c)]) ∧
    (¬(-2048 ≤ toInt32 c ∧ toInt32 c ≤ 2047) →
      (compIR_Logic cfg st (mkInst IROp.XorConst d s1 s2 c)).codeOr [] =
        [HostInstr.LI HostReg.scratch1 (toInt32 c),
         HostInstr.XOR (HostReg.gpr d) (HostReg.gpr s1) HostReg.scratch1]) ∧
    (regRead (runCode H ((compIR_Arith cfg st (mkInst IROp.AddConst d s1 s2 c)).codeOr []))
        (HostReg.gpr d) % W32
      = (regRead H (HostReg.gpr s1) + c) % W32) ∧
    (regRead (runCode H ((compIR_Logic cfg st (mkInst IROp.AndConst d s1 s2 c)).codeOr []))
        (HostReg.gpr d) % W32
      = regRead H (HostReg.gpr s1) % W32 &&& c % W32) ∧
    (regRead (runCode H ((compIR_Logic cfg st (mkInst IROp.OrConst d s1 s2 c)).codeOr []))
        (HostReg.gpr d) % W32
      = regRead H (HostReg.gpr s1) % W32 ||| c % W32) ∧
    (regRead (runCode H ((compIR_Logic cfg st (mkInst IROp.XorConst d s1 s2 c)).codeOr []))
        (HostReg.gpr d) % W32
      = regRead H (HostReg.gpr s1) % W32 ^^^ c % W32) ∧
    (-2048 ≤ toInt32 c ∧ toInt32 c ≤ 2047 →
      regRead (runCode H [HostInstr.ADDIW (HostReg.gpr d) (HostReg.gpr s1) (toInt32 c)])
          (HostReg.gpr d)
        = regRead (runCode H [HostInstr.LI HostReg.scratch1 (toInt32 c),
            HostInstr.ADDW (HostReg.gpr d) (HostReg.gpr s1) HostReg.scratch1])
          (HostReg.gpr d)) ∧
    (-2048 ≤ toInt32 c ∧ toInt32 c ≤ 2047 →
      regRead (runCode H [HostInstr.ANDI (HostReg.gpr d) (HostReg.gpr s1) (toInt32 c)])
          (HostReg.gpr d)
        = regRead (runCode H [HostInstr.LI HostReg.scratch1 (toInt32 c),
            HostInstr.AND (HostReg.gpr d) (HostReg.gpr s1) HostReg.scratch1])
          (HostReg.gpr d)) ∧
    (-2048 ≤ toInt32 c ∧ toInt32 c ≤ 2047 →
      regRead (runCode H [HostInstr.ORI (HostReg.gpr d) (HostReg.gpr s1) (toInt32 c)])
          (HostReg.gpr d)
        = regRead (runCode H [HostInstr.LI HostReg.scratch1 (toInt32 c),
            HostInstr.OR (HostReg.gpr d) (HostReg.gpr s1) HostReg.scratch1])
          (HostReg.gpr d)) ∧
    (-2048 ≤ toInt32 c ∧ toInt32 c ≤ 2047 →
      regRead (runCode H [HostInstr.XORI (HostReg.gpr d) (HostReg.gpr s1) (toInt32 c)])
          (HostReg.gpr d)
        = regRead (runCode H [HostInstr.LI HostReg.scratch1 (toInt32 c),
            HostInstr.XOR (HostReg.gpr d) (HostReg.gpr s1) HostReg.scratch1])
          (HostReg.gpr d)) := by
  have htU := toU64_toInt32 c
  have htUlt := toU64_lt (toInt32 c)
  have hvlt := regRead_lt H (HostReg.gpr s1)
  have hadd := compIR_Arith_addConst cfg st d s1 s2 c
  have hptr : ¬(st.pointerMapped s1 = true ∧ d = s1 ∧ cfg.maskedPSPMemory = true) :=
    fun hq => by rw [hnp] at hq; exact Bool.noConfusion hq.1
  refine ⟨?_, ?_, ?_, ?_, ?_, ?_, ?_, ?_, ?_, ?_, ?_, ?_, ?_, ?_, ?_, ?_⟩
  · intro hin
    rw [hadd, if_pos hin, if_neg hptr]
    rfl
  · intro hout
    rw [hadd, if_neg hout]
    rfl
  · intro hin
    rw [compIR_Logic_andConst_code, if_pos hin]
  · intro hout
    rw [compIR_Logic_andConst_code, if_neg hout]
  · intro hin
    rw [compIR_Logic_orConst_code, if_pos hin]
  · intro hout
    rw [compIR_Logic_orConst_code, if_neg hout]
  · intro hin
    rw [compIR_Logic_xorConst_code, if_pos hin]
  · intro hout
    rw [compIR_Logic_xorConst_code, if_neg hout]
  · rcases Decidable.em (-2048 ≤ toInt32 c ∧ toInt32 c ≤ 2047) with hin | hout
    · rw [hadd, if_pos hin, if_neg hptr]
      simp only [Outcome.codeOr, runCode_cons, runCode_nil, evalInstr]
      rw [regRead_hset_same _ _ _ (by simp)]
      rw [Nat.mod_eq_of_lt (sext32_lt _ (mod_W32_lt _)), sext32_mod32 _ (mod_W32_lt _)]
      rw [htU]
      rcases sext32_cases (c % W32) with ⟨h1, h2⟩ | ⟨h1, h2⟩ <;>
        rw [h2] <;> simp only [W32, H32, W64] at * <;> omega
    · rw [hadd, if_neg hout]
      simp only [Outcome.codeOr, runCode_cons, runCode_nil, evalInstr]
      rw [regRead_hset_same _ _ _ (by simp)]
      rw [regRead_hset_other _ _ _ _ (by simp), regRead_hset_same _ _ _ (by simp)]
      rw [Nat.mod_eq_of_lt htUlt]
      rw [Nat.mod_eq_of_lt (sext32_lt _ (mod_W32_lt _)), sext32_mod32 _ (mod_W32_lt _)]
      rw [htU]
      rcases sext32_cases (c % W32) with ⟨h1, h2⟩ | ⟨h1, h2⟩ <;>
        rw [h2] <;> simp only [W32, H32, W64] at * <;> omega
  · rcases Decidable.em (-2048 ≤ toInt32 c ∧ toInt32 c ≤ 2047) with hin | hout
    · rw [compIR_Logic_andConst_code, if_pos hin]
      simp only [runCode_cons, runCode_nil, evalInstr]
      rw [regRead_hset_same _ _ _ (by simp)]
      rw [Nat.mod_eq_of_lt (land_lt_W64 _ _ htUlt)]
      rw [land_mod_W32, htU, sext32_mod32 _ (mod_W32_lt _)]
    · rw [compIR_Logic_andConst_code, if_neg hout]
      simp only [runCode_cons, runCode_nil, evalInstr]
      rw [regRead_hset_same _ _ _ (by simp)]
      rw [regRead_hset_other _ _ _ _ (by simp), regRead_hset_same _ _ _ (by simp)]
      rw [Nat.mod_eq_of_lt htUlt]
      rw [Nat.mod_eq_of_lt (land_lt_W64 _ _ htUlt)]
      rw [land_mod_W32, htU, sext32_mod32 _ (mod_W32_lt _)]
  · rcases Decidable.em (-2048 ≤ toInt32 c ∧ toInt32 c ≤ 2047) with hin | hout
    · rw [compIR_Logic_orConst_code, if_pos hin]
      simp only [runCode_cons, runCode_nil, evalInstr]
      rw [regRead_hset_same _ _ _ (by simp)]
      rw [Nat.mod_eq_of_lt (lor_lt_W64 _ _ hvlt htUlt)]
      rw [lor_mod_W32, htU, sext32_mod32 _ (mod_W32_lt _)]
    · rw [compIR_Logic_orConst_code, if_neg hout]
      simp only [runCode_cons, runCode_nil, evalInstr]
      rw [regRead_hset_same _ _ _ (by simp)]
      rw [regRead_hset_other _ _ _ _ (by simp), regRead_hset_same _ _ _ (by simp)]
      rw [Nat.mod_eq_of_lt htUlt]
      rw [Nat.mod_eq_of_lt (lor_lt_W64 _ _ hvlt htUlt)]
      rw [lor_mod_W32, htU, sext32_mod32 _ (mod_W32_lt _)]
  · rcases Decidable.em (-2048 ≤ toInt32 c ∧ toInt32 c ≤ 2047) with hin | hout
    · rw [compIR_Logic_xorConst_code, if_pos hin]
      simp only [runCode_cons, runCode_nil, evalInstr]
      rw [regRead_hset_same _ _ _ (by simp)]
      rw [Nat.mod_eq_of_lt (xor_lt_W64 _ _ hvlt htUlt)]
      rw [xor_mod_W32, htU, sext32_mod32 _ (mod_W32_lt _)]
    · rw [compIR_Logic_xorConst_code, if_neg hout]
      simp only [runCode_cons, runCode_nil, evalInstr]
      rw [regRead_hset_same _ _ _ (by simp)]
      rw [regRead_hset_other _ _ _ _ (by simp), regRead_hset_same _ _ _ (by simp)]
      rw [Nat.mod_eq_of_lt htUlt]
      rw [Nat.mod_eq_of_lt (xor_lt_W64 _ _ hvlt htUlt)]
      rw [xor_mod_W32, htU, sext32_mod32 _ (mod_W32_lt _)]
  · intro _
    simp only [runCode_cons, runCode_nil, evalInstr]
    rw [regRead_hset_same _ _ _ (by simp), regRead_hset_same _ _ _ (by simp)]
    rw [regRead_hset_other _ _ _ _ (by simp), regRead_hset_same _ _ _ (by simp)]
    rw [Nat.mod_eq_of_lt htUlt]
  · intro _
    simp only [runCode_cons, runCode_nil, evalInstr]
    rw [regRead_hset_same _ _ _ (by simp), regRead_hset_same _ _ _ (by simp)]
    rw [regRead_hset_other _ _ _ _ (by simp), regRead_hset_same _ _ _ (by simp)]
    rw [Nat.mod_eq_of_lt htUlt]
  · intro _
    simp only [runCode_cons, runCode_nil, evalInstr]
    rw [regRead_hset_same _ _ _ (by simp), regRead_hset_same _ _ _ (by simp)]
    rw [regRead_hset_other _ _ _ _ (by simp), regRead_hset_same _ _ _ (by simp)]
    rw [Nat.mod_eq_of_lt htUlt]
  · intro _
    simp only [runCode_cons, runCode_nil, evalInstr]
    rw [regRead_hset_same _ _ _ (by simp), regRead_hset_same _ _ _ (by simp)]
    rw [regRead_hset_other _ _ _ _ (by simp), regRead_hset_same _ _ _ (by simp)]
    rw [Nat.mod_eq_of_lt htUlt]

theorem constOp_immediate_boundary_witness :
    (compIR_Arith cfg0 stZero (mkInst IROp.AddConst 1 2 0 2047)).codeOr [] =
      [HostInstr.ADDIW (HostReg.gpr 1) (HostReg.gpr 2) (toInt32 2047)] ∧
    (compIR_Arith cfg0 stZero (mkInst IROp.AddConst 1 2 0 2048)).codeOr [] =
      [HostInstr.LI HostReg.scratch1 (toInt32 2048),
       HostInstr.ADDW (HostReg.gpr 1) (HostReg.gpr 2) HostReg.scratch1] ∧
    regRead (runCode H0 ((compIR_Logic cfg0 stZero
        (mkInst IROp.AndConst 1 2 0 4294965248)).codeOr [])) (HostReg.gpr 1) % W32
      = regRead H0 (HostReg.gpr 2) % W32 &&& 4294965248 % W32 :=
  ⟨(constOp_immediate_boundary cfg0 stZero 1 2 0 2047 H0 rfl).1 (by decide),
   (constOp_immediate_boundary cfg0 stZero 1 2 0 2048 H0 rfl).2.1 (by decide),
   (constOp_immediate_boundary cfg0 stZero 1 2 0 4294965248 H0 rfl).2.2.2.2.2.2.2.2.2.1⟩

end PpssppSpec
